import Mathlib

/-!
Verification of the objectdb core (`src/objectdb/database.py` and
`src/objectdb/backends/mongodb.py`) against its natural-language
specification.

The Python data model is shallowly embedded:
* `ObjectId` models `bson.objectid.ObjectId` (12 bytes, hex-string form);
* `ForeignKey` models `objectdb.database.ForeignKey` — note that its
  `identifier` slot can hold either a `str` or a `PyObjectId` at runtime,
  which the sum type `FKId` captures;
* `DatabaseItem` models a pydantic entity instance: its class name, its
  `identifier` field and its declared data-field assignments;
* the MongoDB backend's collections are modelled as association lists of
  documents, a `Store` mapping each collection name to its documents,
  and each `Database` method as a function on `Store`.  Fallible methods
  return `Except DbError`.  MongoDB's `update_one(upsert=True)` /
  `find_one` / `delete_one` act on the first matching document (a real
  collection has a unique index on `_id`, so at most one matches).
-/

set_option autoImplicit false

namespace ObjectDB

/-- A bson `ObjectId`: 12 bytes.  Modelled as the byte list (each entry a
`Nat` below 256; the operations verified here never overflow a byte). -/
structure ObjectId where
  bytes : List Nat
  deriving DecidableEq, Repr

/-- Python errors raised by the layer, under the spec's taxonomy names:
`validation` is pydantic's `ValidationError`, `invalidIdentifier` the
`ValueError` of `PyObjectId.validate`, `referenceConversion` the
`TypeError` of the `ForeignKey` validator, `notSupported` the
`NotImplementedError` of `MongoDBDatabase.get_all`. -/
inductive DbError where
  | unknownEntity
  | validation
  | referenceConversion
  | invalidIdentifier
  | deserialization
  | backendUnavailable
  | notSupported
  deriving DecidableEq, Repr

/-- Hex digit test, as accepted by `bytes.fromhex` inside `ObjectId(str)`. -/
def isHexChar (c : Char) : Bool :=
  c.isDigit || (('a' ≤ c) && (c ≤ 'f')) || (('A' ≤ c) && (c ≤ 'F'))

/-- Numeric value of a hex digit. -/
def hexVal (c : Char) : Nat :=
  if c.isDigit then c.toNat - '0'.toNat
  else if ('a' ≤ c) && (c ≤ 'f') then c.toNat - 'a'.toNat + 10
  else c.toNat - 'A'.toNat + 10

/-- Decode consecutive pairs of hex digits into bytes (`bytes.fromhex`). -/
def hexPairsToBytes : List Char → List Nat
  | c1 :: c2 :: rest => (16 * hexVal c1 + hexVal c2) :: hexPairsToBytes rest
  | _ => []

/-- `ObjectId(s)` for a hex string `s`. -/
def ObjectId.ofHex (s : String) : ObjectId :=
  ⟨hexPairsToBytes s.data⟩

/-- Lower-case hex digit for a value below 16. -/
def hexDigitChar (n : Nat) : Char :=
  if n < 10 then Char.ofNat ('0'.toNat + n) else Char.ofNat ('a'.toNat + (n - 10))

/-- Two-digit hex form of one byte. -/
def byteToHex (b : Nat) : List Char :=
  [hexDigitChar (b / 16), hexDigitChar (b % 16)]

/-- `str(oid)`: the 24-character lower-case hex form. -/
def ObjectId.toHex (o : ObjectId) : String :=
  ⟨(o.bytes.map byteToHex).flatten⟩

/-- `ObjectId.is_valid` on a string: length 24 and every character a hex
digit (bson checks `len(oid) == 24` and then `bytes.fromhex`). -/
def isValidIdString (s : String) : Bool :=
  s.length == 24 && s.data.all isHexChar

/-- Runtime inputs reaching `PyObjectId.validate`: an existing `ObjectId`
instance, a string, or anything else (`other` covers every type for which
`ObjectId.is_valid` is false, e.g. `None` or an `int`). -/
inductive IdInput where
  | oidVal (o : ObjectId)
  | strVal (s : String)
  | otherVal
  deriving DecidableEq, Repr

/-- `PyObjectId.validate`: an `ObjectId` instance is copied as-is; any
other input must pass `ObjectId.is_valid` or a `ValueError`
(`invalidIdentifier`) is raised; a valid string is parsed. -/
def PyObjectId.validate : IdInput → Except DbError ObjectId
  | .oidVal o => .ok o
  | .strVal s => if isValidIdString s then .ok (ObjectId.ofHex s) else .error .invalidIdentifier
  | .otherVal => .error .invalidIdentifier

/-- The runtime value held in `ForeignKey.identifier`: the validator stores
`v.identifier` (a `PyObjectId`) when converting an entity instance, and the
raw `str` when converting a string. -/
inductive FKId where
  | oid (o : ObjectId)
  | strId (s : String)
  deriving DecidableEq, Repr

/-- Python `==` between two such values: `ObjectId.__eq__` compares bytes
against another `ObjectId` and returns `NotImplemented` against a `str`
(and vice versa), so a mixed comparison falls back to identity and is
`False` for distinct objects. -/
def FKId.pyEq : FKId → FKId → Bool
  | .oid a, .oid b => a == b
  | .strId a, .strId b => a == b
  | _, _ => false

/-- `ForeignKey`: the target type (classes compared by identity, modelled
by their names) and the stored identifier value. -/
structure ForeignKey where
  target_type : String
  identifier : FKId
  deriving DecidableEq, Repr

/-- `ForeignKey.__eq__`: target types equal and stored identifiers `==`. -/
def fkEq (a b : ForeignKey) : Bool :=
  a.target_type == b.target_type && FKId.pyEq a.identifier b.identifier

/-- A field value inside an entity or stored document. -/
inductive Value where
  | str (s : String)
  | ref (fk : ForeignKey)
  deriving DecidableEq, Repr

/-- An entity instance: its concrete class name, its `identifier`, and its
declared data fields as name/value assignments. -/
structure DatabaseItem where
  typeName : String
  identifier : ObjectId
  fields : List (String × Value)
  deriving DecidableEq, Repr

/-- `DatabaseItem.__eq__` between two entity instances: identifier
equality only (the class and the data fields are not consulted). -/
def itemEq (a b : DatabaseItem) : Bool :=
  a.identifier == b.identifier

/-- `hash(oid)` is a function of the 12 bytes only. -/
def idHashNat (o : ObjectId) : Nat :=
  o.bytes.foldl (fun a b => 256 * a + b) 0

/-- `DatabaseItem.__hash__` = `hash(self.identifier)`. -/
def itemHash (e : DatabaseItem) : Nat :=
  idHashNat e.identifier

/-- Runtime inputs reaching the `ForeignKey[T]` pydantic validator: an
existing `ForeignKey`, an entity instance, a string, or anything else. -/
inductive FKInput where
  | fk (f : ForeignKey)
  | inst (item : DatabaseItem)
  | strIn (s : String)
  | other
  deriving DecidableEq, Repr

/-- The validator installed by `ForeignKey.__class_getitem__` for target
type `t`: an existing `ForeignKey` is returned unchanged (its own target
type is not inspected); an instance of `t` yields
`ForeignKey(t, v.identifier)` with the `PyObjectId` stored; a string
yields `ForeignKey(t, v)` with the `str` stored; everything else is
rejected (`TypeError` in the validator, or pydantic's union failure —
both surface as the spec's `referenceConversion`). -/
def foreignKeyValidator (t : String) : FKInput → Except DbError ForeignKey
  | .fk f => .ok f
  | .inst item => if item.typeName == t then .ok ⟨t, .oid item.identifier⟩ else .error .referenceConversion
  | .strIn s => .ok ⟨t, .strId s⟩
  | .other => .error .referenceConversion

/-- An entity class: its name and its declared data-field names. -/
structure EntityType where
  name : String
  declaredFields : List String
  deriving DecidableEq, Repr

/-- A stored MongoDB document: its `_id` and its remaining fields. -/
structure Doc where
  id : ObjectId
  fields : List (String × Value)
  deriving DecidableEq, Repr

/-- The backend state: each collection name's list of documents. -/
def Store := String → List Doc

/-- `collection.find_one(filter=(_id = id))`: first document with `_id`. -/
def findOneDoc (coll : List Doc) (id : ObjectId) : Option Doc :=
  coll.find? (fun d => d.id == id)

/-- Extract the declared fields from a document's field map, in
declaration order; `none` when a declared field is missing. -/
def getDeclared : List String → List (String × Value) → Option (List (String × Value))
  | [], _ => some []
  | k :: ks, docFields =>
    match docFields.lookup k with
    | some v => (getDeclared ks docFields).map (fun rest => (k, v) :: rest)
    | none => none

/-- `class_type.model_validate(doc)`: populates `identifier` from `_id`
and every declared field from the document (extra document fields are
ignored, pydantic's default); fails (`ValidationError`, the read-side
`deserialization` of the spec is the same mechanism) when a declared
field is absent. -/
def model_validate (ty : EntityType) (d : Doc) : Except DbError DatabaseItem :=
  match getDeclared ty.declaredFields d.fields with
  | some fs => .ok ⟨ty.name, d.id, fs⟩
  | none => .error .validation

/-- MongoDB `$set` on an existing document: listed fields are overwritten,
unlisted ones kept. -/
def setFields (orig upd : List (String × Value)) : List (String × Value) :=
  orig.filter (fun kv => !((upd.map Prod.fst).contains kv.fst)) ++ upd

/-- Apply `$set` to the first document whose `_id` matches. -/
def updateFirst (coll : List Doc) (id : ObjectId) (upd : List (String × Value)) : List Doc :=
  match coll with
  | [] => []
  | d :: rest =>
    if d.id == id then ⟨d.id, setFields d.fields upd⟩ :: rest
    else d :: updateFirst rest id upd

/-- `update_one(filter=(_id = id), update=($set fields), upsert=True)`:
overwrite the matching document's listed fields if present, insert a
fresh document otherwise. -/
def upsertColl (coll : List Doc) (item : DatabaseItem) : List Doc :=
  if coll.any (fun d => d.id == item.identifier) then updateFirst coll item.identifier item.fields
  else coll ++ [⟨item.identifier, item.fields⟩]

/-- `MongoDBDatabase.update`: `item.model_validate(item)` first
(`ValidationError` stops the write), then the upsert above on the
collection named after `type(item)`; `model_dump(exclude=_id)` sends
exactly the declared data fields. -/
def mongoUpdate (store : Store) (ty : EntityType) (item : DatabaseItem) : Except DbError Store :=
  match getDeclared ty.declaredFields item.fields with
  | none => .error .validation
  | some _ =>
    .ok (fun name => if name = item.typeName then upsertColl (store item.typeName) item else store name)

/-- `MongoDBDatabase.get`: `find_one` on `_id`; a found document (always a
non-empty dict, hence truthy) is validated into the entity, otherwise
`UnknownEntityError`. -/
def mongoGet (store : Store) (ty : EntityType) (id : ObjectId) : Except DbError DatabaseItem :=
  match findOneDoc (store ty.name) id with
  | some d => model_validate ty d
  | none => .error .unknownEntity

/-- `MongoDBDatabase.get_all`: `raise NotImplementedError` (the spec's
`NotSupportedError`) unconditionally. -/
def mongoGetAll (_store : Store) (_ty : EntityType) : Except DbError (List (String × DatabaseItem)) :=
  .error .notSupported

/-- Remove the first document whose `_id` matches (`delete_one`). -/
def deleteFirst (coll : List Doc) (id : ObjectId) : List Doc :=
  match coll with
  | [] => []
  | d :: rest => if d.id == id then rest else d :: deleteFirst rest id

/-- `MongoDBDatabase.delete`: `delete_one` on `_id`, then
`UnknownEntityError` unless `deleted_count == 1`; the `cascade` flag
(default `False` at call sites) is ignored by the implementation. -/
def mongoDelete (store : Store) (ty : EntityType) (id : ObjectId) (_cascade : Bool) : Except DbError Store :=
  if (store ty.name).any (fun d => d.id == id) then
    .ok (fun name => if name = ty.name then deleteFirst (store ty.name) id else store name)
  else .error .unknownEntity

/-- A document matches the `find` filter when every key/value pair equals
the document's field of that name (exact top-level equality). -/
def docMatches (d : Doc) (filters : List (String × Value)) : Bool :=
  filters.all (fun kv => d.fields.lookup kv.fst == some kv.snd)

/-- Validate every result document, propagating the first failure. -/
def validateAll (ty : EntityType) : List Doc → Except DbError (List (ObjectId × DatabaseItem))
  | [] => .ok []
  | d :: ds =>
    match model_validate ty d, validateAll ty ds with
    | .ok e, .ok rest => .ok ((d.id, e) :: rest)
    | .error er, _ => .error er
    | _, .error er => .error er

/-- Python truthiness of the pymongo cursor returned by
`collection.find`: the cursor class defines neither `__bool__` nor
`__len__`, so the object is truthy whatever its result set. -/
def cursorIsTruthy (_results : List Doc) : Bool :=
  true

/-- `MongoDBDatabase.find`: build the cursor of matching documents; the
walrus guard `if results := collection.find(...)` tests the cursor's
truthiness, and on the (always-taken) truthy branch builds the
identifier-keyed mapping of validated entities; the `return None` branch
is kept from the source. -/
def mongoFind (store : Store) (ty : EntityType) (filters : List (String × Value)) :
    Except DbError (Option (List (ObjectId × DatabaseItem))) :=
  let results := (store ty.name).filter (fun d => docMatches d filters)
  if cursorIsTruthy results then
    match validateAll ty results with
    | .ok m => .ok (some m)
    | .error er => .error er
  else .ok none

/-- `MongoDBDatabase.find_one`: first matching document, validated;
`None` when nothing matches (a found document is a non-empty dict, hence
truthy). -/
def mongoFindOne (store : Store) (ty : EntityType) (filters : List (String × Value)) :
    Except DbError (Option DatabaseItem) :=
  match (store ty.name).find? (fun d => docMatches d filters) with
  | some d =>
    match model_validate ty d with
    | .ok e => .ok (some e)
    | .error er => .error er
  | none => .ok none

/-! ### Helper lemmas -/

/-- A successful `getDeclared` returns exactly the declared field names,
in declaration order. -/
theorem getDeclared_keys (ks : List String) (df fs : List (String × Value))
    (h : getDeclared ks df = some fs) : fs.map Prod.fst = ks := by
  induction ks generalizing fs with
  | nil =>
    cases h
    rfl
  | cons k ks ih =>
    unfold getDeclared at h
    cases hl : df.lookup k with
    | none =>
      rw [hl] at h
      cases h
    | some v =>
      rw [hl] at h
      cases hg : getDeclared ks df with
      | none =>
        rw [hg] at h
        cases h
      | some rest =>
        rw [hg] at h
        cases h
        simp [ih rest hg]

/-- Association-list lookup skips a head entry with a different key. -/
theorem lookup_cons_ne (k : String) (p : String × Value) (rest : List (String × Value))
    (h : k ≠ p.1) : List.lookup k (p :: rest) = List.lookup k rest := by
  obtain ⟨k', v⟩ := p
  have hb : (k == k') = false := by simp_all
  simp [List.lookup, hb]

/-- `getDeclared` only looks up the declared keys, so field maps that
agree on them extract identically. -/
theorem getDeclared_congr (ks : List String) (f1 f2 : List (String × Value))
    (h : ∀ k ∈ ks, f1.lookup k = f2.lookup k) :
    getDeclared ks f1 = getDeclared ks f2 := by
  induction ks with
  | nil => rfl
  | cons k ks ih =>
    simp only [getDeclared]
    rw [h k (List.mem_cons_self k ks), ih (fun k' hk' => h k' (List.mem_cons_of_mem k hk'))]

/-- Extracting a field map along its own (duplicate-free) key list
returns it unchanged. -/
theorem getDeclared_self (fs : List (String × Value)) (ks : List String)
    (hk : fs.map Prod.fst = ks) (hnd : ks.Nodup) :
    getDeclared ks fs = some fs := by
  induction fs generalizing ks with
  | nil =>
    subst hk
    rfl
  | cons p rest ih =>
    subst hk
    rw [List.map_cons, List.nodup_cons] at hnd
    obtain ⟨hp, hrest⟩ := hnd
    have hcongr : getDeclared (rest.map Prod.fst) (p :: rest) = getDeclared (rest.map Prod.fst) rest :=
      getDeclared_congr _ _ _ (fun k hk => lookup_cons_ne k p rest (fun e => hp (e ▸ hk)))
    simp only [getDeclared]
    have hhead : List.lookup p.1 (p :: rest) = some p.2 := by
      simp [List.lookup]
    rw [hhead, hcongr, ih (rest.map Prod.fst) rfl hrest]
    rfl

/-- After `$set`, every field named in the update reads back from the
update. -/
theorem lookup_setFields (orig upd : List (String × Value)) (k : String)
    (hk : k ∈ upd.map Prod.fst) :
    (setFields orig upd).lookup k = upd.lookup k := by
  unfold setFields
  induction orig with
  | nil => rfl
  | cons p rest ih =>
    rw [List.filter_cons]
    by_cases hmem : p.1 ∈ upd.map Prod.fst
    · rw [if_neg (by simp [List.elem_iff, hmem])]
      exact ih
    · rw [if_pos (by simp [List.elem_iff, hmem])]
      rw [List.cons_append, lookup_cons_ne k p _ (fun e => hmem (e ▸ hk))]
      exact ih

/-- The document found at `item.identifier` after an upsert carries that
identifier and reads back every updated field. -/
theorem findOne_upsert (coll : List Doc) (item : DatabaseItem) :
    ∃ d, findOneDoc (upsertColl coll item) item.identifier = some d
      ∧ d.id = item.identifier
      ∧ ∀ k ∈ item.fields.map Prod.fst, d.fields.lookup k = item.fields.lookup k := by
  unfold upsertColl
  by_cases h : coll.any (fun d => d.id == item.identifier) = true
  · rw [if_pos h]
    induction coll with
    | nil => cases h
    | cons d rest ih =>
      by_cases hd : d.id = item.identifier
      · refine ⟨⟨d.id, setFields d.fields item.fields⟩, ?_, hd, ?_⟩
        · unfold updateFirst findOneDoc
          rw [if_pos (by simp [hd])]
          simp [List.find?, hd]
        · intro k hk
          exact lookup_setFields d.fields item.fields k hk
      · have hrest : rest.any (fun x => x.id == item.identifier) = true := by
          rw [List.any_cons] at h
          rcases Bool.or_eq_true_iff.mp h with h1 | h2
          · exact absurd (eq_of_beq h1) hd
          · exact h2
        obtain ⟨d', hf', hid', hlk'⟩ := ih hrest
        refine ⟨d', ?_, hid', hlk'⟩
        unfold updateFirst findOneDoc
        rw [if_neg (by simp [hd])]
        rw [findOneDoc] at hf'
        simp only [List.find?]
        rw [show (d.id == item.identifier) = false from by simp [hd]]
        exact hf'
  · rw [if_neg h]
    refine ⟨⟨item.identifier, item.fields⟩, ?_, rfl, fun k hk => rfl⟩
    unfold findOneDoc
    rw [List.find?_append]
    have hnone : coll.find? (fun d => d.id == item.identifier) = none := by
      rw [List.find?_eq_none]
      intro x hx hbx
      exact h (List.any_eq_true.mpr ⟨x, hx, hbx⟩)
    rw [hnone]
    simp [List.find?]

/-- With a duplicate-free `_id` column (MongoDB's unique index), no
document with the deleted `_id` survives `delete_one`. -/
theorem deleteFirst_id_ne {coll : List Doc} {id : ObjectId}
    (hnd : (coll.map Doc.id).Nodup) :
    ∀ x ∈ deleteFirst coll id, x.id ≠ id := by
  induction coll with
  | nil =>
    intro x hx
    cases hx
  | cons d rest ih =>
    rw [List.map_cons, List.nodup_cons] at hnd
    obtain ⟨hdid, hrest⟩ := hnd
    intro x hx
    rw [deleteFirst] at hx
    by_cases h : d.id = id
    · rw [if_pos (by simp [h])] at hx
      intro hxid
      exact hdid (by rw [h, ← hxid]; exact List.mem_map_of_mem Doc.id hx)
    · rw [if_neg (by simp [h])] at hx
      rcases List.mem_cons.mp hx with hxd | hxtail
      · subst hxd
        exact h
      · exact ih hrest x hxtail

/-- `find_one` finds nothing at a deleted `_id`. -/
theorem deleteFirst_find_none {coll : List Doc} {id : ObjectId}
    (hnd : (coll.map Doc.id).Nodup) :
    (deleteFirst coll id).find? (fun d => d.id == id) = none := by
  rw [List.find?_eq_none]
  intro x hx hbx
  exact deleteFirst_id_ne hnd x hx (eq_of_beq hbx)

/-- `delete_one` on a deleted `_id` matches nothing. -/
theorem deleteFirst_any_false {coll : List Doc} {id : ObjectId}
    (hnd : (coll.map Doc.id).Nodup) :
    ((deleteFirst coll id).any fun d => d.id == id) = false := by
  rw [List.any_eq_false]
  intro x hx hbx
  exact deleteFirst_id_ne hnd x hx (eq_of_beq hbx)

/-- `mongoFind` with the always-truthy cursor guard reduced. -/
theorem mongoFind_eq (store : Store) (ty : EntityType) (filters : List (String × Value)) :
    mongoFind store ty filters =
      match validateAll ty ((store ty.name).filter fun d => docMatches d filters) with
      | .ok m => .ok (some m)
      | .error er => .error er :=
  rfl

/-- Whether a stored document still deserializes into the entity class. -/
def validatesOk (ty : EntityType) (d : Doc) : Bool :=
  match model_validate ty d with
  | .ok _ => true
  | .error _ => false

/-- On a batch of documents that all deserialize, `validateAll` succeeds
and its result pairs each document's `_id` with its entity, exactly. -/
theorem validateAll_ok (ty : EntityType) (ds : List Doc)
    (h : ∀ d ∈ ds, validatesOk ty d = true) :
    ∃ m, validateAll ty ds = .ok m
      ∧ (∀ p ∈ m, ∃ d ∈ ds, d.id = p.1 ∧ model_validate ty d = .ok p.2)
      ∧ (∀ d ∈ ds, ∃ e, model_validate ty d = .ok e ∧ (d.id, e) ∈ m)
      ∧ (ds = [] → m = []) := by
  induction ds with
  | nil =>
    exact ⟨[], rfl, by simp, by simp, fun _ => rfl⟩
  | cons d rest ih =>
    have hd := h d (List.mem_cons_self d rest)
    obtain ⟨e, he⟩ : ∃ e, model_validate ty d = .ok e := by
      unfold validatesOk at hd
      cases hm : model_validate ty d with
      | ok e => exact ⟨e, rfl⟩
      | error er =>
        rw [hm] at hd
        cases hd
    obtain ⟨m, hm, hsound, hcomp, _⟩ := ih (fun x hx => h x (List.mem_cons_of_mem d hx))
    refine ⟨(d.id, e) :: m, ?_, ?_, ?_, ?_⟩
    · unfold validateAll
      rw [he, hm]
    · intro p hp
      rcases List.mem_cons.mp hp with hpe | hpm
      · exact ⟨d, List.mem_cons_self d rest, by rw [hpe], by rw [hpe]; exact he⟩
      · obtain ⟨d', hd', hid', hval'⟩ := hsound p hpm
        exact ⟨d', List.mem_cons_of_mem d hd', hid', hval'⟩
    · intro x hx
      rcases List.mem_cons.mp hx with hxd | hxr
      · subst hxd
        exact ⟨e, he, List.mem_cons_self _ _⟩
      · obtain ⟨e', he', hm'⟩ := hcomp x hxr
        exact ⟨e', he', List.mem_cons_of_mem _ hm'⟩
    · intro h'
      cases h'

/-! ### Concrete fixtures (the entity classes of the repository's tests) -/

/-- The `User` entity class of the MongoDB tests. -/
def userTy : EntityType := ⟨"User", ["name", "email"]⟩

def oid1 : ObjectId := ⟨[0, 0, 0, 0, 0, 0, 0, 0, 0, 0, 0, 1]⟩

def oid2 : ObjectId := ⟨[0, 0, 0, 0, 0, 0, 0, 0, 0, 0, 0, 2]⟩

/-- The empty backend state. -/
def emptyStore : Store := fun _ => []

def custA : DatabaseItem := ⟨"Customer", oid1, [("name", Value.str "Ann"), ("city", Value.str "X")]⟩

def eveDoc : Doc := ⟨oid1, [("name", Value.str "Eve"), ("email", Value.str "e")]⟩

def frankDoc : Doc := ⟨oid2, [("name", Value.str "Frank"), ("email", Value.str "f")]⟩

/-- A `User` collection holding the spec's find-exactness example. -/
def twoUserStore : Store := fun name => if name = "User" then [eveDoc, frankDoc] else []

def prodB : DatabaseItem := ⟨"Product", oid1, [("name", Value.str "Pin")]⟩

def prodRef : ForeignKey := ⟨"Product", .strId "abc"⟩

/-! ### Claims -/

/-- C4: two entity instances (of any concrete entity types, any field
values) are equal iff their identifiers are equal; equal identifiers give
equal hashes; the data fields influence neither equality nor hash. -/
theorem item_identity_equality (a b : DatabaseItem) :
    (itemEq a b = true ↔ a.identifier = b.identifier)
    ∧ (a.identifier = b.identifier → itemHash a = itemHash b)
    ∧ (∀ fs gs : List (String × Value),
        itemEq ⟨a.typeName, a.identifier, fs⟩ ⟨b.typeName, b.identifier, gs⟩ = itemEq a b
        ∧ itemHash ⟨a.typeName, a.identifier, fs⟩ = itemHash a) := by
  refine ⟨?_, ?_, ?_⟩
  · simp [itemEq]
  · intro h
    simp [itemHash, h]
  · intro fs gs
    exact ⟨rfl, rfl⟩

/-- C4 witness: a `Customer` and a `Product` instance sharing the
identifier but with different fields compare equal and hash equal. -/
theorem item_identity_equality_witness :
    itemEq custA prodB = true ∧ itemHash custA = itemHash prodB :=
  ⟨(item_identity_equality custA prodB).1.mpr (by decide),
   (item_identity_equality custA prodB).2.1 (by decide)⟩

/-- C5: evaluating the code at the failing input.  A reference built from
a `Customer` instance stores the `PyObjectId`, one built from the same
identifier's hex string stores the `str`, and `ForeignKey.__eq__` finds
them unequal (Python `ObjectId == str` is `False`), contradicting the
claimed normalization. -/
theorem fk_instance_vs_string_unequal :
    foreignKeyValidator "Customer" (.inst custA) = .ok ⟨"Customer", .oid oid1⟩
    ∧ foreignKeyValidator "Customer" (.strIn (ObjectId.toHex oid1)) =
        .ok ⟨"Customer", .strId (ObjectId.toHex oid1)⟩
    ∧ fkEq ⟨"Customer", .oid oid1⟩ ⟨"Customer", .strId (ObjectId.toHex oid1)⟩ = false := by
  refine ⟨rfl, rfl, by decide⟩

/-- C6 counterexample: an existing reference whose target type is
`Product` is accepted unchanged by the `ForeignKey[Customer]` validator —
the claim says such a cross-target input must fail. -/
theorem fk_cross_target_accepted :
    foreignKeyValidator "Customer" (.fk prodRef) = .ok prodRef
    ∧ foreignKeyValidator "Customer" (.fk prodRef) ≠ .error .referenceConversion :=
  ⟨rfl, by simp [foreignKeyValidator]⟩

/-- C6 amended: construction fails with `ReferenceConversionError` exactly
on an unsupported input shape or on an entity instance of the wrong type;
any existing `ForeignKey` — its own target type is never inspected — and
any string are accepted. -/
theorem fk_validator_errors (t : String) :
    (∀ v, foreignKeyValidator t v = .error .referenceConversion ↔
      (v = .other ∨ ∃ item, v = .inst item ∧ item.typeName ≠ t))
    ∧ (∀ f, foreignKeyValidator t (.fk f) = .ok f)
    ∧ (∀ s, foreignKeyValidator t (.strIn s) = .ok ⟨t, .strId s⟩) := by
  refine ⟨?_, fun f => rfl, fun s => rfl⟩
  intro v
  cases v with
  | fk f => simp [foreignKeyValidator]
  | inst item =>
    by_cases h : item.typeName = t
    · simp [foreignKeyValidator, h]
    · simp [foreignKeyValidator, h]
  | strIn s => simp [foreignKeyValidator]
  | other => simp [foreignKeyValidator]

/-- C6 amended witness: unsupported shapes and wrong-typed instances do
fail on concrete inputs. -/
theorem fk_validator_errors_witness :
    foreignKeyValidator "Customer" FKInput.other = .error .referenceConversion
    ∧ foreignKeyValidator "Customer" (.inst prodB) = .error .referenceConversion :=
  ⟨((fk_validator_errors "Customer").1 FKInput.other).mpr (Or.inl rfl),
   ((fk_validator_errors "Customer").1 (.inst prodB)).mpr (Or.inr ⟨prodB, rfl, by decide⟩)⟩

/-- C8: on the document-store backend `get_all` always explicitly
declines with the spec's `NotSupportedError` (the `NotImplementedError`
raise): it never silently returns a result and never fails with another
error kind. -/
theorem mongoGetAll_declines (store : Store) (ty : EntityType) :
    mongoGetAll store ty = .error .notSupported :=
  rfl

/-- C9: `PyObjectId.validate` on a string fails with
`InvalidIdentifierError` exactly when the string is not a well-formed
24-character hex identifier, and parses it to the corresponding
`ObjectId` otherwise. -/
theorem pyObjectId_validate_spec (s : String) :
    (isValidIdString s = false → PyObjectId.validate (.strVal s) = .error .invalidIdentifier)
    ∧ (isValidIdString s = true → PyObjectId.validate (.strVal s) = .ok (ObjectId.ofHex s)) := by
  constructor
  · intro h
    simp [PyObjectId.validate, h]
  · intro h
    simp [PyObjectId.validate, h]

/-- C9 witness: one malformed and one well-formed concrete string. -/
theorem pyObjectId_validate_spec_witness :
    PyObjectId.validate (.strVal "00ff") = .error .invalidIdentifier
    ∧ PyObjectId.validate (.strVal "0123456789abcdef01234567") =
        .ok (ObjectId.ofHex "0123456789abcdef01234567") :=
  ⟨(pyObjectId_validate_spec "00ff").1 (by decide),
   (pyObjectId_validate_spec "0123456789abcdef01234567").2 (by decide)⟩

/-- C1: updating a valid entity (its class matches, its field names are
its class's declared fields, which are distinct) succeeds against any
prior store state, and `get` on its type and identifier then returns the
entity itself — identifier-equal, with every declared field holding the
last written value — whether the identifier was present before (all
declared fields overwritten) or not (inserted). -/
theorem update_get_roundtrip (store : Store) (ty : EntityType) (item : DatabaseItem)
    (hty : item.typeName = ty.name)
    (hfields : item.fields.map Prod.fst = ty.declaredFields)
    (hnd : ty.declaredFields.Nodup) :
    ∃ store', mongoUpdate store ty item = .ok store'
      ∧ mongoGet store' ty item.identifier = .ok item := by
  have hval : getDeclared ty.declaredFields item.fields = some item.fields :=
    getDeclared_self item.fields ty.declaredFields hfields hnd
  refine ⟨fun name => if name = item.typeName then upsertColl (store item.typeName) item else store name, ?_, ?_⟩
  · unfold mongoUpdate
    rw [hval]
  · obtain ⟨d, hfind, hid, hlk⟩ := findOne_upsert (store item.typeName) item
    unfold mongoGet
    rw [show (fun name => if name = item.typeName then upsertColl (store item.typeName) item else store name) ty.name = upsertColl (store item.typeName) item from by simp [hty]]
    rw [hfind]
    show model_validate ty d = Except.ok item
    unfold model_validate
    rw [getDeclared_congr ty.declaredFields d.fields item.fields
      (fun k hk => hlk k (by rw [hfields]; exact hk)), hval, hid, ← hty]

/-- C1 witness: a fresh `User` round-trips through the empty store. -/
theorem update_get_roundtrip_witness :
    ∃ store', mongoUpdate emptyStore userTy
        ⟨"User", oid1, [("name", Value.str "Alice"), ("email", Value.str "al")]⟩ = .ok store'
      ∧ mongoGet store' userTy oid1 =
          .ok ⟨"User", oid1, [("name", Value.str "Alice"), ("email", Value.str "al")]⟩ :=
  update_get_roundtrip emptyStore userTy
    ⟨"User", oid1, [("name", Value.str "Alice"), ("email", Value.str "al")]⟩
    (by decide) (by decide) (by decide)

/-- C2: `get` on an identifier absent from the type's collection fails
with `UnknownEntityError`; and whenever `get` succeeds the returned
entity is fully populated — its class is the requested one, its
identifier is the requested identifier, and its data fields are exactly
the declared fields. -/
theorem mongoGet_missing_fails (store : Store) (ty : EntityType) (id : ObjectId) :
    (findOneDoc (store ty.name) id = none → mongoGet store ty id = .error .unknownEntity)
    ∧ (∀ e, mongoGet store ty id = .ok e →
        e.typeName = ty.name ∧ e.identifier = id ∧ e.fields.map Prod.fst = ty.declaredFields) := by
  constructor
  · intro h
    unfold mongoGet
    rw [h]
  · intro e h
    unfold mongoGet at h
    cases hf : findOneDoc (store ty.name) id with
    | none =>
      rw [hf] at h
      cases h
    | some d =>
      rw [hf] at h
      have h2 : model_validate ty d = Except.ok e := h
      unfold model_validate at h2
      cases hg : getDeclared ty.declaredFields d.fields with
      | none =>
        rw [hg] at h2
        cases h2
      | some fs =>
        rw [hg] at h2
        cases h2
        refine ⟨rfl, ?_, getDeclared_keys _ _ _ hg⟩
        have hp := List.find?_some hf
        exact eq_of_beq hp

/-- C2 witness: the empty collection rejects a concrete identifier. -/
theorem mongoGet_missing_fails_witness :
    mongoGet emptyStore userTy oid1 = .error .unknownEntity :=
  (mongoGet_missing_fails emptyStore userTy oid1).1 (by decide)

/-- C3: with the collection's `_id` column duplicate-free (MongoDB's
unique index): deleting a present identifier succeeds, after which `get`
on it fails with `UnknownEntityError` and a second `delete` also fails
with `UnknownEntityError`; deleting an absent identifier fails with
`UnknownEntityError`. -/
theorem mongoDelete_semantics (store : Store) (ty : EntityType) (id : ObjectId)
    (hnd : ((store ty.name).map Doc.id).Nodup) :
    ((store ty.name).any (fun d => d.id == id) = true →
      ∃ store', mongoDelete store ty id false = .ok store'
        ∧ mongoGet store' ty id = .error .unknownEntity
        ∧ mongoDelete store' ty id false = .error .unknownEntity)
    ∧ ((store ty.name).any (fun d => d.id == id) = false →
        mongoDelete store ty id false = .error .unknownEntity) := by
  constructor
  · intro h
    refine ⟨fun name => if name = ty.name then deleteFirst (store ty.name) id else store name, ?_, ?_, ?_⟩
    · unfold mongoDelete
      rw [if_pos h]
    · unfold mongoGet findOneDoc
      rw [show (fun name => if name = ty.name then deleteFirst (store ty.name) id else store name) ty.name = deleteFirst (store ty.name) id from by simp]
      rw [deleteFirst_find_none hnd]
    · unfold mongoDelete
      rw [show (fun name => if name = ty.name then deleteFirst (store ty.name) id else store name) ty.name = deleteFirst (store ty.name) id from by simp]
      rw [if_neg (by rw [deleteFirst_any_false hnd]; exact Bool.false_ne_true)]
  · intro h
    unfold mongoDelete
    rw [if_neg (by rw [h]; exact Bool.false_ne_true)]

/-- C3 witness: one stored `User` is deleted, then unreadable and
undeletable; and deleting from the empty collection fails. -/
theorem mongoDelete_semantics_witness :
    (∃ store', mongoDelete (fun name => if name = "User" then [⟨oid1, [("name", Value.str "A")]⟩] else []) userTy oid1 false = .ok store'
      ∧ mongoGet store' userTy oid1 = .error .unknownEntity
      ∧ mongoDelete store' userTy oid1 false = .error .unknownEntity)
    ∧ mongoDelete emptyStore userTy oid2 false = .error .unknownEntity :=
  ⟨(mongoDelete_semantics (fun name => if name = "User" then [⟨oid1, [("name", Value.str "A")]⟩] else []) userTy oid1 (by decide)).1 (by decide),
   (mongoDelete_semantics emptyStore userTy oid2 (by decide)).2 (by decide)⟩

/-- C7: when every stored document of the collection deserializes, `find`
returns (without error) exactly the mapping from identifier to entity of
the stored documents whose fields equal every filter pair — sound and
complete — and an unmatched filter yields the empty mapping, not an
error; the `None` indicator is not produced. -/
theorem mongoFind_exactness (store : Store) (ty : EntityType) (filters : List (String × Value))
    (hval : ∀ d ∈ store ty.name, validatesOk ty d = true) :
    ∃ m, mongoFind store ty filters = .ok (some m)
      ∧ (∀ p ∈ m, ∃ d ∈ store ty.name, docMatches d filters = true ∧ d.id = p.1
          ∧ model_validate ty d = .ok p.2)
      ∧ (∀ d ∈ store ty.name, docMatches d filters = true →
          ∃ e, model_validate ty d = .ok e ∧ (d.id, e) ∈ m)
      ∧ (((store ty.name).filter fun d => docMatches d filters) = [] → m = []) := by
  obtain ⟨m, hm, hsound, hcomp, hemp⟩ :=
    validateAll_ok ty ((store ty.name).filter fun d => docMatches d filters)
      (fun d hd => hval d (List.mem_filter.mp hd).1)
  refine ⟨m, ?_, ?_, ?_, hemp⟩
  · rw [mongoFind_eq, hm]
  · intro p hp
    obtain ⟨d, hd, hid, hv⟩ := hsound p hp
    obtain ⟨hdm, hmatch⟩ := List.mem_filter.mp hd
    exact ⟨d, hdm, hmatch, hid, hv⟩
  · intro d hd hmatch
    exact hcomp d (List.mem_filter.mpr ⟨hd, hmatch⟩)

/-- C7 witness: on `{Eve, Frank}`, filtering on the name `Eve` returns a
sound-and-complete mapping (namely `{Eve.id: Eve}`). -/
theorem mongoFind_exactness_witness :
    ∃ m, mongoFind twoUserStore userTy [("name", Value.str "Eve")] = .ok (some m)
      ∧ (∀ p ∈ m, ∃ d ∈ twoUserStore userTy.name,
          docMatches d [("name", Value.str "Eve")] = true ∧ d.id = p.1
          ∧ model_validate userTy d = .ok p.2)
      ∧ (∀ d ∈ twoUserStore userTy.name, docMatches d [("name", Value.str "Eve")] = true →
          ∃ e, model_validate userTy d = .ok e ∧ (d.id, e) ∈ m)
      ∧ (((twoUserStore userTy.name).filter fun d => docMatches d [("name", Value.str "Eve")]) = [] → m = []) :=
  mongoFind_exactness twoUserStore userTy [("name", Value.str "Eve")] (by decide)

/-- C10: `find` never produces the `None` no-filter-evaluated indicator —
the cursor guarding the `return None` branch is always truthy — so any
returned value is a mapping, and an unmatched filter yields the empty
mapping rather than `None`. -/
theorem mongoFind_never_none (store : Store) (ty : EntityType) (filters : List (String × Value)) :
    (∀ r, mongoFind store ty filters = .ok r → ∃ m, r = some m)
    ∧ cursorIsTruthy ((store ty.name).filter fun d => docMatches d filters) = true
    ∧ (((store ty.name).filter fun d => docMatches d filters) = [] →
        mongoFind store ty filters = .ok (some [])) := by
  refine ⟨?_, rfl, ?_⟩
  · intro r h
    rw [mongoFind_eq] at h
    cases hv : validateAll ty ((store ty.name).filter fun d => docMatches d filters) with
    | ok m =>
      rw [hv] at h
      exact ⟨m, (Except.ok.inj h).symm⟩
    | error er =>
      rw [hv] at h
      cases h
  · intro he
    rw [mongoFind_eq, he]
    rfl

/-- C10 witness: an unmatched filter on the empty store returns the empty
mapping, not `None`. -/
theorem mongoFind_never_none_witness :
    mongoFind emptyStore userTy [("name", Value.str "Eve")] = .ok (some []) :=
  (mongoFind_never_none emptyStore userTy [("name", Value.str "Eve")]).2.2 (by decide)

end ObjectDB
